import Mathlib

/-!
# Verification of the bounded blocking queue (src/src/lab.c)

Shallow embedding of the C monitor queue.  The C state is a `struct queue`
holding a ring buffer (`void **buffer`), `int` fields `capacity`, `size`,
`front`, `rear`, and the boolean `is_shutdown_flag`; a `queue_t` is a
possibly-NULL pointer to such a struct.

Modelling conventions:
* item payloads (`void *`) are modelled as natural-number addresses `Ptr`
  with `NULL = 0`;
* C `int` fields are modelled as `Int` (the program never overflows them
  for the capacities considered, and the invariants proved below bound
  every field well inside the `int` range);
* the `NULL` queue handle is the `none` of `queue_t := Option queue`;
* the mutex and condition variables are synchronisation devices with no
  data content; the embedding gives the sequential (single-thread, idle
  queue) semantics of each critical section.  A `pthread_cond_wait` loop
  that cannot be exited without the help of another thread is modelled as the
  `none` outcome ("blocks") of the `Option`-valued operation;
* `assert(capacity > 0)` aborting, and `malloc`/init failures returning
  NULL, are both non-success outcomes of `queue_init`, modelled as `none`;
  the `some` branch is the successful-allocation path;
* C `%` on the operands that actually occur (`rear + 1 ≥ 0`,
  `front + 1 ≥ 1`, positive `capacity`) agrees with the Lean `Int.emod`.
-/

/-- An item payload: a `void *` modelled as an address. -/
abbrev Ptr := Nat

/-- The NULL pointer. -/
def NULL : Ptr := 0

/-- The C `struct queue` (lab.c lines 10-20), minus the pthread mutex and
condition variables, which carry no data. -/
structure queue where
  buffer : List Ptr
  capacity : Int
  size : Int
  front : Int
  rear : Int
  is_shutdown_flag : Bool
  deriving Repr, DecidableEq

/-- `queue_t` is a possibly-NULL pointer to a `struct queue`. -/
abbrev queue_t := Option queue

/-- `queue_init` (lab.c lines 28-76): `assert(capacity > 0)`, allocate the
buffer, and set `size = 0`, `front = 0`, `rear = -1`, flag false.  `none`
models the non-success outcomes (the assert firing on `capacity ≤ 0`, or
an allocation failure, which the concrete heap does not decide; the `some`
branch is the successful path).  The freshly `malloc`ed buffer is
uninitialised in C; it is modelled as all-`NULL` junk, never read before
being written. -/
def queue_init (capacity : Int) : queue_t :=
  if 0 < capacity then
    some { buffer := List.replicate capacity.toNat NULL
           capacity := capacity
           size := 0
           front := 0
           rear := -1
           is_shutdown_flag := false }
  else none

/-- The critical section of `enqueue` (lab.c lines 116-137), entered with a
non-NULL queue and the lock held.  The wait loop
`while (size == capacity && !is_shutdown_flag)` cannot be exited by this
thread alone, so on an idle queue that case is `none` ("blocks").
Otherwise: if shutting down, return without inserting; else write `data`
at `rear = (rear + 1) % capacity` and increment `size`. -/
def enqueueQ (q : queue) (data : Ptr) : Option queue :=
  if q.size = q.capacity ∧ ¬ q.is_shutdown_flag then
    none
  else if q.is_shutdown_flag then
    some q
  else
    let rear := (q.rear + 1) % q.capacity
    some { q with rear := rear
                  buffer := q.buffer.set rear.toNat data
                  size := q.size + 1 }

/-- `enqueue` (lab.c lines 111-137): NULL check, then the critical
section.  `enqueue NULL data` returns at once with no effect. -/
def enqueue (q : queue_t) (data : Ptr) : Option queue_t :=
  match q with
  | none => some none
  | some s => (enqueueQ s data).map some

/-- The critical section of `dequeue` (lab.c lines 150-173).  The wait loop
`while (size == 0 && !is_shutdown_flag)` blocks (`none`) on an idle queue.
Otherwise: if `size == 0` (woken by shutdown with nothing queued), return
NULL and leave the state unchanged; else read `buffer[front]`, advance
`front = (front + 1) % capacity`, decrement `size`. -/
def dequeueQ (q : queue) : Option (Ptr × queue) :=
  if q.size = 0 ∧ ¬ q.is_shutdown_flag then
    none
  else if q.size = 0 then
    some (NULL, q)
  else
    let data := q.buffer.getD q.front.toNat NULL
    some (data, { q with front := (q.front + 1) % q.capacity
                         size := q.size - 1 })

/-- `dequeue` (lab.c lines 145-173): NULL check (returning NULL), then the
critical section. -/
def dequeue (q : queue_t) : Option (Ptr × queue_t) :=
  match q with
  | none => some (NULL, none)
  | some s => (dequeueQ s).map (fun p => (p.1, some p.2))

/-- The critical section of `queue_shutdown` (lab.c lines 186-192): set the
flag and broadcast both conditions (the broadcasts carry no data). -/
def shutdownQ (q : queue) : queue :=
  { q with is_shutdown_flag := true }

/-- `queue_shutdown` (lab.c lines 181-193): NULL check, then set the flag.
Never blocks. -/
def queue_shutdown (q : queue_t) : queue_t :=
  match q with
  | none => none
  | some s => some (shutdownQ s)

/-- `queue_destroy` (lab.c lines 83-103): NULL check, then
`queue_shutdown`, a defensive re-broadcast, and deallocation.  The
deallocation frees memory outside the modelled state; the result is the
observable state just before `free`. -/
def queue_destroy (q : queue_t) : queue_t :=
  match q with
  | none => none
  | some s => some (shutdownQ s)

/-- `is_empty` (lab.c lines 201-211): `true` for a NULL handle, else
`size == 0`. -/
def is_empty (q : queue_t) : Bool :=
  match q with
  | none => true
  | some s => s.size == 0

/-- `is_shutdown` (lab.c lines 219-229): `true` for a NULL handle, else the
flag. -/
def is_shutdown (q : queue_t) : Bool :=
  match q with
  | none => true
  | some s => s.is_shutdown_flag

/-- Enqueue each element of `xs` in order (a producer loop). -/
def enqueueAll : queue_t → List Ptr → Option queue_t
  | q, [] => some q
  | q, x :: xs => (enqueue q x).bind fun q2 => enqueueAll q2 xs

/-- Dequeue `n` times, collecting the returned values in order (a consumer
loop). -/
def dequeueAll : queue_t → Nat → Option (List Ptr × queue_t)
  | q, 0 => some ([], q)
  | q, n + 1 =>
    (dequeue q).bind fun p =>
      (dequeueAll p.2 n).map fun r => (p.1 :: r.1, r.2)

/-- The logical FIFO content of the ring buffer: the `size` occupied slots
starting at `front`, oldest first. -/
def toList (q : queue) : List Ptr :=
  (List.range q.size.toNat).map fun (i : Nat) =>
    q.buffer.getD ((q.front + (i : Int)) % q.capacity).toNat NULL

/-- The representation invariant of the ring buffer, established by
`queue_init` and preserved by every operation. -/
structure QInv (q : queue) : Prop where
  cap_pos : 0 < q.capacity
  buflen : q.buffer.length = q.capacity.toNat
  front_lb : 0 ≤ q.front
  front_ub : q.front < q.capacity
  size_lb : 0 ≤ q.size
  size_ub : q.size ≤ q.capacity
  rear_lb : -1 ≤ q.rear
  rear_ub : q.rear < q.capacity
  rear_eq : (q.rear + 1) % q.capacity = (q.front + q.size) % q.capacity

/-- The queue states reachable through the API from a successful
`queue_init`: construction, then any sequence of completed `enqueue`,
`dequeue` and `queue_shutdown` critical sections (`is_empty` and
`is_shutdown` do not modify the state). -/
inductive Reachable : queue → Prop
  | init (capacity : Int) (q : queue) : queue_init capacity = some q → Reachable q
  | enq (q : queue) (data : Ptr) (q2 : queue) :
      Reachable q → enqueueQ q data = some q2 → Reachable q2
  | deq (q : queue) (data : Ptr) (q2 : queue) :
      Reachable q → dequeueQ q = some (data, q2) → Reachable q2
  | shut (q : queue) : Reachable q → Reachable (shutdownQ q)

/-! ## Arithmetic and list helpers -/

theorem emod_bounds (cap a : Int) (hcap : 0 < cap) :
    0 ≤ a % cap ∧ a % cap < cap :=
  ⟨Int.emod_nonneg a (by omega), Int.emod_lt_of_pos a hcap⟩

theorem emod_ne_of_between (cap a b : Int) (_hcap : 0 < cap) (hab : b < a)
    (hd : a - b < cap) : a % cap ≠ b % cap := by
  intro h
  have h0 := Int.emod_eq_emod_iff_emod_sub_eq_zero.mp h
  rw [Int.emod_eq_of_lt (by omega) hd] at h0
  omega

theorem emod_toNat_ne (cap a b : Int) (hcap : 0 < cap) (h : a % cap ≠ b % cap) :
    (a % cap).toNat ≠ (b % cap).toNat := by
  have ha := (emod_bounds cap a hcap).1
  have hb := (emod_bounds cap b hcap).1
  omega

theorem getD_set_self (l : List Ptr) (i : Nat) (a d : Ptr) (h : i < l.length) :
    (l.set i a).getD i d = a := by
  simp [List.getD_eq_getElem?_getD, List.getElem?_set_eq_of_lt a h]

theorem getD_set_ne (l : List Ptr) (i j : Nat) (a d : Ptr) (h : i ≠ j) :
    (l.set i a).getD j d = l.getD j d := by
  simp [List.getD_eq_getElem?_getD, List.getElem?_set_ne h]

theorem toList_length (q : queue) : (toList q).length = q.size.toNat := by
  rw [toList, List.length_map, List.length_range]

/-! ## Operation specifications over the invariant -/

theorem enqueueQ_some (q : queue) (d : Ptr) (hflag : q.is_shutdown_flag = false)
    (hsz : q.size < q.capacity) :
    enqueueQ q d = some
      { q with rear := (q.rear + 1) % q.capacity
               buffer := q.buffer.set ((q.rear + 1) % q.capacity).toNat d
               size := q.size + 1 } := by
  have h1 : ¬(q.size = q.capacity ∧ ¬ q.is_shutdown_flag = true) := by
    rintro ⟨h, _⟩; omega
  have h2 : ¬ q.is_shutdown_flag = true := by simp [hflag]
  simp only [enqueueQ, if_neg h1, if_neg h2]

theorem enqueueQ_spec (q : queue) (d : Ptr) (hInv : QInv q)
    (hflag : q.is_shutdown_flag = false) (hsz : q.size < q.capacity) :
    ∃ q2, enqueueQ q d = some q2 ∧ QInv q2 ∧ toList q2 = toList q ++ [d] ∧
      q2.size = q.size + 1 ∧ q2.capacity = q.capacity ∧
      q2.is_shutdown_flag = false ∧ q2.front = q.front := by
  obtain ⟨hcap, hbuf, hflb, hfub, hslb, hsub, hrlb, hrub, hre⟩ := hInv
  have hw0 : 0 ≤ (q.rear + 1) % q.capacity := (emod_bounds _ _ hcap).1
  have hw1 : (q.rear + 1) % q.capacity < q.capacity := (emod_bounds _ _ hcap).2
  have key : ∀ i : Nat, i < q.size.toNat →
      (q.buffer.set ((q.rear + 1) % q.capacity).toNat d).getD
          ((q.front + (i : Int)) % q.capacity).toNat NULL
        = q.buffer.getD ((q.front + (i : Int)) % q.capacity).toNat NULL := by
    intro i hi
    apply getD_set_ne
    rw [hre]
    apply emod_toNat_ne _ _ _ hcap
    apply emod_ne_of_between _ _ _ hcap
    · omega
    · omega
  have hlast :
      (q.buffer.set ((q.rear + 1) % q.capacity).toNat d).getD
          ((q.front + (q.size.toNat : Int)) % q.capacity).toNat NULL = d := by
    have hsn : (q.size.toNat : Int) = q.size := by omega
    rw [hsn, ← hre]
    apply getD_set_self
    rw [hbuf]
    omega
  have hn : (q.size + 1).toNat = q.size.toNat + 1 := by omega
  refine ⟨_, enqueueQ_some q d hflag hsz, ?_, ?_, rfl, rfl, hflag, rfl⟩
  · constructor
    · exact hcap
    · dsimp only; rw [List.length_set]; exact hbuf
    · exact hflb
    · exact hfub
    · dsimp only; omega
    · dsimp only; omega
    · dsimp only; omega
    · exact hw1
    · dsimp only
      calc ((q.rear + 1) % q.capacity + 1) % q.capacity
          = ((q.front + q.size) % q.capacity + 1) % q.capacity := by rw [hre]
        _ = (q.front + q.size + 1) % q.capacity := Int.emod_add_emod _ _ _
        _ = (q.front + (q.size + 1)) % q.capacity := by ring_nf
  · rw [toList, toList]
    dsimp only
    rw [hn, List.range_succ, List.map_append]
    congr 1
    · exact List.map_congr_left (fun i hi => key i (List.mem_range.mp hi))
    · simp only [List.map_cons, List.map_nil, hlast]

theorem dequeueQ_some (q : queue) (hsz : 0 < q.size) :
    dequeueQ q = some (q.buffer.getD q.front.toNat NULL,
      { q with front := (q.front + 1) % q.capacity, size := q.size - 1 }) := by
  have h1 : ¬(q.size = 0 ∧ ¬ q.is_shutdown_flag = true) := by rintro ⟨h, _⟩; omega
  have h2 : ¬ q.size = 0 := by omega
  simp only [dequeueQ, if_neg h1, if_neg h2]

theorem dequeueQ_spec (q : queue) (hInv : QInv q) (hsz : 0 < q.size) :
    ∃ d q2, dequeueQ q = some (d, q2) ∧ QInv q2 ∧ toList q = d :: toList q2 ∧
      q2.size = q.size - 1 ∧ q2.capacity = q.capacity ∧
      q2.is_shutdown_flag = q.is_shutdown_flag ∧ q2.buffer = q.buffer := by
  obtain ⟨hcap, hbuf, hflb, hfub, hslb, hsub, hrlb, hrub, hre⟩ := hInv
  have hf0 : 0 ≤ (q.front + 1) % q.capacity := (emod_bounds _ _ hcap).1
  have hf1 : (q.front + 1) % q.capacity < q.capacity := (emod_bounds _ _ hcap).2
  have key : ∀ i : Nat,
      q.buffer.getD (((q.front + 1) % q.capacity + (i : Int)) % q.capacity).toNat NULL
        = q.buffer.getD ((q.front + ((i : Nat) + 1 : Int)) % q.capacity).toNat NULL := by
    intro i
    rw [Int.emod_add_emod]
    ring_nf
  have hhead : q.buffer.getD ((q.front + ((0 : Nat) : Int)) % q.capacity).toNat NULL
      = q.buffer.getD q.front.toNat NULL := by
    norm_num
    rw [Int.emod_eq_of_lt hflb hfub]
  have hn : q.size.toNat = (q.size - 1).toNat + 1 := by omega
  refine ⟨_, _, dequeueQ_some q hsz, ?_, ?_, rfl, rfl, rfl, rfl⟩
  · constructor
    · exact hcap
    · exact hbuf
    · exact hf0
    · exact hf1
    · dsimp only; omega
    · dsimp only; omega
    · exact hrlb
    · exact hrub
    · dsimp only
      calc (q.rear + 1) % q.capacity
          = (q.front + q.size) % q.capacity := hre
        _ = (q.front + 1 + (q.size - 1)) % q.capacity := by ring_nf
        _ = ((q.front + 1) % q.capacity + (q.size - 1)) % q.capacity :=
            (Int.emod_add_emod _ _ _).symm
  · rw [toList, toList]
    dsimp only
    rw [hn, List.range_succ_eq_map, List.map_cons, List.map_map]
    congr 1
    all_goals
      first
        | exact hhead
        | (apply List.map_congr_left; intro i _; simpa using (key i).symm)

theorem queue_init_some (cap : Int) (hcap : 0 < cap) :
    ∃ q, queue_init cap = some q ∧ QInv q ∧ toList q = [] ∧ q.size = 0 ∧
      q.front = 0 ∧ q.rear = -1 ∧ q.capacity = cap ∧
      q.is_shutdown_flag = false := by
  refine ⟨_, by rw [queue_init, if_pos hcap], ?_, ?_, rfl, rfl, rfl, rfl, rfl⟩
  · constructor
    · exact hcap
    · dsimp only; rw [List.length_replicate]
    · dsimp only; omega
    · dsimp only; omega
    · dsimp only; omega
    · dsimp only; omega
    · dsimp only; omega
    · dsimp only; omega
    · dsimp only; norm_num
  · rw [toList]
    dsimp only
    rw [Int.toNat_zero, List.range_zero, List.map_nil]

theorem enqueueAll_spec (xs : List Ptr) (q : queue) (hInv : QInv q)
    (hflag : q.is_shutdown_flag = false)
    (hlen : q.size + (xs.length : Int) ≤ q.capacity) :
    ∃ q2, enqueueAll (some q) xs = some (some q2) ∧ QInv q2 ∧
      toList q2 = toList q ++ xs ∧ q2.size = q.size + (xs.length : Int) ∧
      q2.capacity = q.capacity ∧ q2.is_shutdown_flag = false := by
  induction xs generalizing q with
  | nil => exact ⟨q, rfl, hInv, by simp, by simp, rfl, hflag⟩
  | cons x xs ih =>
    have hx : q.size < q.capacity := by
      have : ((x :: xs).length : Int) = (xs.length : Int) + 1 := by
        simp [List.length_cons]
      omega
    obtain ⟨q1, he, hI1, hl1, hs1, hc1, hf1, hfr1⟩ := enqueueQ_spec q x hInv hflag hx
    obtain ⟨q2, he2, hI2, hl2, hs2, hc2, hf2⟩ := ih q1 hI1 hf1 (by
      rw [hs1, hc1]
      have : ((x :: xs).length : Int) = (xs.length : Int) + 1 := by
        simp [List.length_cons]
      omega)
    refine ⟨q2, ?_, hI2, ?_, ?_, ?_, hf2⟩
    · rw [enqueueAll, enqueue, he]
      exact he2
    · rw [hl2, hl1, List.append_assoc, List.singleton_append]
    · rw [hs2, hs1]
      have : ((x :: xs).length : Int) = (xs.length : Int) + 1 := by
        simp [List.length_cons]
      omega
    · rw [hc2, hc1]

theorem dequeueAll_spec (xs : List Ptr) (q : queue) (hInv : QInv q)
    (hlist : toList q = xs) :
    ∃ q2, dequeueAll (some q) xs.length = some (xs, some q2) ∧ QInv q2 ∧
      q2.size = 0 ∧ toList q2 = [] ∧ q2.capacity = q.capacity ∧
      q2.is_shutdown_flag = q.is_shutdown_flag := by
  induction xs generalizing q with
  | nil =>
    exact ⟨q, rfl, hInv, by
      have := toList_length q
      rw [hlist] at this
      have hslb := hInv.size_lb
      simp at this
      omega, hlist, rfl, rfl⟩
  | cons x xs ih =>
    have hpos : 0 < q.size := by
      have := toList_length q
      rw [hlist] at this
      have hslb := hInv.size_lb
      simp [List.length_cons] at this
      omega
    obtain ⟨d, q1, hd, hI1, hcons, hs1, hc1, hf1, hb1⟩ := dequeueQ_spec q hInv hpos
    rw [hlist] at hcons
    injection hcons with hdx htail
    obtain ⟨q2, hd2, hI2, hs2, hl2, hc2, hf2⟩ := ih q1 hI1 htail.symm
    refine ⟨q2, ?_, hI2, hs2, hl2, by rw [hc2, hc1], by rw [hf2, hf1]⟩
    have hstep : dequeueAll (some q) (x :: xs).length
        = (dequeueAll (some q1) xs.length).map fun r => (d :: r.1, r.2) := by
      rw [List.length_cons, dequeueAll, dequeue, hd]
      rfl
    rw [hstep, hd2, ← hdx]
    rfl

theorem QInv_of_Reachable (q : queue) (h : Reachable q) : QInv q := by
  induction h with
  | init cap q hq =>
    have hcap : 0 < cap := by
      by_contra hc
      rw [queue_init, if_neg hc] at hq
      cases hq
    obtain ⟨q0, hq0, hI, -, -, -, -, -, -⟩ := queue_init_some cap hcap
    rw [hq0] at hq
    injection hq with h
    rw [← h]
    exact hI
  | enq q d q2 hR hstep ih =>
    by_cases hflag : q.is_shutdown_flag
    · have heq : enqueueQ q d = some q := by
        have h1 : ¬(q.size = q.capacity ∧ ¬ q.is_shutdown_flag = true) := by
          rintro ⟨-, hh⟩; exact hh hflag
        simp only [enqueueQ, if_neg h1, if_pos hflag]
      rw [heq] at hstep
      injection hstep with h
      rw [← h]
      exact ih
    · have hflag2 : q.is_shutdown_flag = false := by simpa using hflag
      by_cases hsz : q.size = q.capacity
      · have heq : enqueueQ q d = none := by
          rw [enqueueQ, if_pos ⟨hsz, by simp [hflag2]⟩]
        rw [heq] at hstep
        cases hstep
      · have hlt : q.size < q.capacity := lt_of_le_of_ne ih.size_ub hsz
        obtain ⟨q3, he, hI, -, -, -, -⟩ := enqueueQ_spec q d ih hflag2 hlt
        rw [he] at hstep
        injection hstep with h
        rw [← h]
        exact hI
  | deq q d q2 hR hstep ih =>
    by_cases hsz : q.size = 0
    · by_cases hflag : q.is_shutdown_flag
      · have heq : dequeueQ q = some (NULL, q) := by
          have h1 : ¬(q.size = 0 ∧ ¬ q.is_shutdown_flag = true) := by
            rintro ⟨-, hh⟩; exact hh hflag
          simp only [dequeueQ, if_neg h1, if_pos hsz]
        rw [heq] at hstep
        injection hstep with h
        have h2 := congrArg Prod.snd h
        dsimp at h2
        rw [← h2]
        exact ih
      · have heq : dequeueQ q = none := by
          rw [dequeueQ, if_pos ⟨hsz, by simpa using hflag⟩]
        rw [heq] at hstep
        cases hstep
    · have hpos : 0 < q.size := lt_of_le_of_ne ih.size_lb (Ne.symm hsz)
      obtain ⟨d2, q3, hd, hI, -, -, -, -, -⟩ := dequeueQ_spec q ih hpos
      rw [hd] at hstep
      injection hstep with h
      have h2 := congrArg Prod.snd h
      dsimp at h2
      rw [← h2]
      exact hI
  | shut q hR ih =>
    obtain ⟨hcap, hbuf, hflb, hfub, hslb, hsub, hrlb, hrub, hre⟩ := ih
    exact ⟨hcap, hbuf, hflb, hfub, hslb, hsub, hrlb, hrub, hre⟩

/-! ## The claims -/

/-- Claim C1: for every sequence of N enqueue calls followed by N dequeue
calls on an otherwise idle, non-shutdown queue of capacity at least N,
every call completes and the dequeues return the inserted items in exactly
the order they were enqueued (strict FIFO). -/
theorem fifo_order (cap : Int) (xs : List Ptr) (hcap : 0 < cap)
    (hlen : (xs.length : Int) ≤ cap) :
    ((enqueueAll (queue_init cap) xs).bind
        fun q1 => dequeueAll q1 xs.length).map Prod.fst = some xs := by
  obtain ⟨q0, hq0, hI0, hl0, hs0, -, -, hc0, hf0⟩ := queue_init_some cap hcap
  obtain ⟨q1, he, hI1, hl1, -, -, -⟩ :=
    enqueueAll_spec xs q0 hI0 hf0 (by rw [hs0, hc0]; omega)
  obtain ⟨q2, hd, -, -, -, -, -⟩ :=
    dequeueAll_spec xs q1 hI1 (by rw [hl1, hl0]; simp)
  rw [hq0, he]
  show (dequeueAll (some q1) xs.length).map Prod.fst = some xs
  rw [hd]
  rfl

/-- Witness for C1: capacity 2, items [5, 7], drained as [5, 7]. -/
theorem fifo_order_witness :
    ((enqueueAll (queue_init 2) [5, 7]).bind
        fun q1 => dequeueAll q1 (List.length [5, 7])).map Prod.fst
      = some [5, 7] :=
  fifo_order 2 [5, 7] (by decide) (by decide)

/-- Claim C2: after queue_shutdown, dequeue still drains the buffered
items in FIFO order; it takes the Empty branch (returning NULL without
removing) exactly when the buffer is empty, and once the buffer is empty
every subsequent dequeue returns Empty with the state unchanged. -/
theorem shutdown_drain (q : queue) (hR : Reachable q)
    (hsd : q.is_shutdown_flag = true) :
    (q.size = 0 → dequeue (some q) = some (NULL, some q)) ∧
    ∃ q2, dequeueAll (some q) q.size.toNat = some (toList q, some q2) ∧
      q2.size = 0 ∧ dequeue (some q2) = some (NULL, some q2) := by
  have hI := QInv_of_Reachable q hR
  have hempty : ∀ r : queue, r.size = 0 → r.is_shutdown_flag = true →
      dequeue (some r) = some (NULL, some r) := by
    intro r h0 hf
    have h1 : ¬(r.size = 0 ∧ ¬ r.is_shutdown_flag = true) := by
      rintro ⟨-, hh⟩; exact hh hf
    have h2 : dequeueQ r = some (NULL, r) := by
      simp only [dequeueQ, if_neg h1, if_pos h0]
    show (dequeueQ r).map (fun p => (p.1, some p.2)) = some (NULL, some r)
    rw [h2]
    rfl
  obtain ⟨q2, hd, hI2, hs2, hl2, hc2, hf2⟩ := dequeueAll_spec (toList q) q hI rfl
  refine ⟨fun h0 => hempty q h0 hsd, q2, ?_, hs2,
    hempty q2 hs2 (by rw [hf2, hsd])⟩
  rw [← toList_length q]
  exact hd

/-- Witness for C2: a shut-down capacity-1 queue with empty buffer answers
Empty (NULL, state unchanged) to dequeue. -/
theorem shutdown_drain_witness :
    dequeue (some (queue.mk [NULL] 1 0 0 (-1) true))
      = some (NULL, some (queue.mk [NULL] 1 0 0 (-1) true)) :=
  (shutdown_drain _ (Reachable.shut _ (Reachable.init 1 _ rfl)) rfl).1 rfl

/-- Claim C3: if the shutdown flag is true when enqueue stops blocking, the
call returns without inserting and the entire queue state is unchanged. -/
theorem enqueue_after_shutdown_noop (q : queue) (d : Ptr)
    (hsd : q.is_shutdown_flag = true) :
    enqueue (some q) d = some (some q) := by
  have h1 : ¬(q.size = q.capacity ∧ ¬ q.is_shutdown_flag = true) := by
    rintro ⟨-, hh⟩; exact hh hsd
  show (enqueueQ q d).map some = some (some q)
  rw [enqueueQ, if_neg h1, if_pos hsd]
  rfl

/-- Witness for C3 on a concrete shut-down queue. -/
theorem enqueue_after_shutdown_noop_witness :
    enqueue (some (queue.mk [NULL] 1 0 0 (-1) true)) 5
      = some (some (queue.mk [NULL] 1 0 0 (-1) true)) :=
  enqueue_after_shutdown_noop _ 5 rfl

/-- Claim C4: the invariant 0 ≤ size ≤ capacity holds in every reachable
queue state (after construction and after any sequence of enqueue,
dequeue and shutdown; the two query operations do not modify state). -/
theorem size_bounds (q : queue) (hR : Reachable q) :
    0 ≤ q.size ∧ q.size ≤ q.capacity :=
  ⟨(QInv_of_Reachable q hR).size_lb, (QInv_of_Reachable q hR).size_ub⟩

/-- Witness for C4 on the freshly constructed capacity-1 queue. -/
theorem size_bounds_witness :
    0 ≤ (queue.mk [NULL] 1 0 0 (-1) false).size ∧
      (queue.mk [NULL] 1 0 0 (-1) false).size
        ≤ (queue.mk [NULL] 1 0 0 (-1) false).capacity :=
  size_bounds _ (Reachable.init 1 _ rfl)

/-- Claim C5: queue_init on capacity ≤ 0 does not produce a usable queue
(the assert fires; modelled as the none outcome), and on capacity > 0 it
produces a queue with size 0, front 0 and shutdown flag false. -/
theorem queue_init_contract :
    (∀ cap : Int, cap ≤ 0 → queue_init cap = none) ∧
    (∀ cap : Int, 0 < cap → ∃ q, queue_init cap = some q ∧ q.size = 0 ∧
      q.front = 0 ∧ q.is_shutdown_flag = false) := by
  constructor
  · intro cap h
    rw [queue_init, if_neg (by omega)]
  · intro cap h
    obtain ⟨q, hq, -, -, hs, hf, -, -, hsd⟩ := queue_init_some cap h
    exact ⟨q, hq, hs, hf, hsd⟩

/-- Witness for C5 at capacities 0 and 1. -/
theorem queue_init_contract_witness :
    queue_init 0 = none ∧
    ∃ q, queue_init 1 = some q ∧ q.size = 0 ∧ q.front = 0 ∧
      q.is_shutdown_flag = false :=
  ⟨queue_init_contract.1 0 (by decide), queue_init_contract.2 1 (by decide)⟩

/-- Claim C6: queue_shutdown is idempotent and the shutdown flag is
monotonic: shutdown leaves the flag true, and no operation (enqueue,
dequeue or shutdown) ever resets a true flag. -/
theorem shutdown_idempotent_monotone :
    (∀ q : queue_t, queue_shutdown (queue_shutdown q) = queue_shutdown q) ∧
    (∀ q : queue_t, is_shutdown (queue_shutdown q) = true) ∧
    (∀ (q : queue) (d : Ptr) (q2 : queue), q.is_shutdown_flag = true →
      enqueueQ q d = some q2 → q2.is_shutdown_flag = true) ∧
    (∀ (q : queue) (d : Ptr) (q2 : queue), q.is_shutdown_flag = true →
      dequeueQ q = some (d, q2) → q2.is_shutdown_flag = true) ∧
    (∀ q : queue, (shutdownQ q).is_shutdown_flag = true) := by
  refine ⟨?_, ?_, ?_, ?_, fun q => rfl⟩
  · intro q
    cases q
    · rfl
    · rfl
  · intro q
    cases q
    · rfl
    · rfl
  · intro q d q2 hsd hstep
    have h1 : ¬(q.size = q.capacity ∧ ¬ q.is_shutdown_flag = true) := by
      rintro ⟨-, hh⟩; exact hh hsd
    rw [enqueueQ, if_neg h1, if_pos hsd] at hstep
    injection hstep with h
    rw [← h]
    exact hsd
  · intro q d q2 hsd hstep
    by_cases hsz : q.size = 0
    · have h1 : ¬(q.size = 0 ∧ ¬ q.is_shutdown_flag = true) := by
        rintro ⟨-, hh⟩; exact hh hsd
      rw [dequeueQ, if_neg h1, if_pos hsz] at hstep
      injection hstep with h
      have h2 := congrArg Prod.snd h
      dsimp at h2
      rw [← h2]
      exact hsd
    · have h1 : ¬(q.size = 0 ∧ ¬ q.is_shutdown_flag = true) := by
        rintro ⟨hh, -⟩; exact hsz hh
      rw [dequeueQ, if_neg h1, if_neg hsz] at hstep
      injection hstep with h
      have h2 := congrArg Prod.snd h
      dsimp at h2
      rw [← h2]
      exact hsd

/-- Witness for C6: double shutdown equals single shutdown on a concrete
queue, and enqueue and dequeue on a concrete shut-down queue keep the flag
true. -/
theorem shutdown_idempotent_monotone_witness :
    queue_shutdown (queue_shutdown (some (queue.mk [NULL] 1 0 0 (-1) false)))
        = queue_shutdown (some (queue.mk [NULL] 1 0 0 (-1) false)) ∧
    (queue.mk [NULL] 1 0 0 (-1) true).is_shutdown_flag = true ∧
    (queue.mk [NULL] 1 0 0 (-1) true).is_shutdown_flag = true := by
  refine ⟨shutdown_idempotent_monotone.1 _, ?_, ?_⟩
  · exact shutdown_idempotent_monotone.2.2.1 (queue.mk [NULL] 1 0 0 (-1) true) 5
      (queue.mk [NULL] 1 0 0 (-1) true) rfl (by decide)
  · exact shutdown_idempotent_monotone.2.2.2.1 (queue.mk [NULL] 1 0 0 (-1) true)
      NULL (queue.mk [NULL] 1 0 0 (-1) true) rfl (by decide)

/-- Claim C7: queue_shutdown modifies only the shutdown flag; buffer,
capacity, size, front and rear are unchanged, so the drainable contents
are unchanged. -/
theorem shutdown_frame (q : queue) :
    (shutdownQ q).buffer = q.buffer ∧ (shutdownQ q).capacity = q.capacity ∧
    (shutdownQ q).size = q.size ∧ (shutdownQ q).front = q.front ∧
    (shutdownQ q).rear = q.rear ∧ (shutdownQ q).is_shutdown_flag = true ∧
    toList (shutdownQ q) = toList q :=
  ⟨rfl, rfl, rfl, rfl, rfl, rfl, rfl⟩

/-- Claim C8: every reachable state satisfies
(rear + 1) % capacity = (front + size) % capacity — starting from the
initial rear = -1, front = 0, size = 0 — so the slot written by a
successful enqueue, rear 2 = (rear + 1) % capacity, is
(front + size) % capacity. -/
theorem rear_next_slot (q : queue) (hR : Reachable q) :
    (q.rear + 1) % q.capacity = (q.front + q.size) % q.capacity ∧
    (∀ (d : Ptr) (q2 : queue), q.is_shutdown_flag = false →
      enqueueQ q d = some q2 → q2.rear = (q.front + q.size) % q.capacity) := by
  have hI := QInv_of_Reachable q hR
  refine ⟨hI.rear_eq, ?_⟩
  intro d q2 hflag hstep
  by_cases hsz : q.size = q.capacity
  · rw [enqueueQ, if_pos ⟨hsz, by simp [hflag]⟩] at hstep
    cases hstep
  · have hlt : q.size < q.capacity := lt_of_le_of_ne hI.size_ub hsz
    rw [enqueueQ_some q d hflag hlt] at hstep
    injection hstep with h
    rw [← h]
    exact hI.rear_eq

/-- Witness for C8 on the freshly constructed capacity-1 queue. -/
theorem rear_next_slot_witness :
    ((queue.mk [NULL] 1 0 0 (-1) false).rear + 1)
        % (queue.mk [NULL] 1 0 0 (-1) false).capacity
      = ((queue.mk [NULL] 1 0 0 (-1) false).front
          + (queue.mk [NULL] 1 0 0 (-1) false).size)
        % (queue.mk [NULL] 1 0 0 (-1) false).capacity :=
  (rear_next_slot _ (Reachable.init 1 _ rfl)).1

/-- Claim C9: every operation applied to the NULL queue handle is total
and has no effect: enqueue, queue_shutdown and queue_destroy return with
no effect, dequeue returns NULL, and both is_empty and is_shutdown return
true. -/
theorem null_handle_total :
    (∀ d : Ptr, enqueue none d = some none) ∧
    dequeue none = some (NULL, none) ∧
    queue_shutdown none = none ∧
    queue_destroy none = none ∧
    is_empty none = true ∧
    is_shutdown none = true :=
  ⟨fun _ => rfl, rfl, rfl, rfl, rfl, rfl⟩

/-- Claim C10: NULL is both the Empty result and a legal payload: after
enqueueing the NULL pointer into a fresh capacity-1 queue, dequeue returns
NULL from a non-empty queue (a successful removal), while dequeue on an
empty shut-down queue also returns NULL (the Empty result), so the two
outcomes have equal return values and the caller cannot distinguish
them. -/
theorem null_payload_ambiguous :
    ((enqueue (queue_init 1) NULL).bind fun q1 => dequeue q1).map Prod.fst
        = some NULL ∧
    (enqueue (queue_init 1) NULL).map is_empty = some false ∧
    (dequeue (queue_shutdown (queue_init 1))).map Prod.fst = some NULL ∧
    is_empty (queue_shutdown (queue_init 1)) = true := by
  decide
